import Mathlib

/-!
Verification of the KDE system-settings extension (`src/utils/command-executor.ts`).

The development shallowly embeds the TypeScript source: JavaScript strings are
modelled as Lean `String` (a wrapped `List Char`), and the handful of JS string
primitives the source uses (`includes`, `startsWith`, `substring`, `trim`,
`toLowerCase`, `split`) are given structural definitions over the character
list so that all of them evaluate by kernel reduction.  Fallible parsing
returns `Option`, the filesystem is passed in explicitly as directory listings,
and the process-execution boundary is a typed success/failure value.
-/

open List

namespace Vicinae

/-- JS `needle` is a contiguous substring of the character list. -/
def hasSubstr (needle : List Char) : List Char → Bool
  | [] => needle.isEmpty
  | c :: rest => needle.isPrefixOf (c :: rest) || hasSubstr needle rest

/-- JS `s.includes(sub)`. -/
def jsIncludes (s sub : String) : Bool :=
  hasSubstr sub.data s.data

/-- JS `s.startsWith(p)`. -/
def jsStartsWith (s p : String) : Bool :=
  p.data.isPrefixOf s.data

/-- JS `s.endsWith(p)`. -/
def jsEndsWith (s p : String) : Bool :=
  p.data.isSuffixOf s.data

/-- JS `s.substring(n)` (the source only drops ASCII key names, so code units
and characters coincide). -/
def jsSubstringFrom (s : String) (n : Nat) : String :=
  ⟨s.data.drop n⟩

/-- JS `s.trim()`. -/
def jsTrim (s : String) : String :=
  ⟨((s.data.dropWhile Char.isWhitespace).reverse.dropWhile Char.isWhitespace).reverse⟩

/-- JS `s.toLowerCase()` (ASCII case mapping). -/
def jsToLower (s : String) : String :=
  ⟨s.data.map Char.toLower⟩

/-- Split a character list at every character satisfying `p`, keeping empty
segments, exactly as JS `String.prototype.split` with a single-character
separator does. -/
def splitWhen (p : Char → Bool) : List Char → List (List Char)
  | [] => [[]]
  | x :: xs =>
    match splitWhen p xs with
    | [] => [[]]
    | seg :: rest => if p x then [] :: seg :: rest else (x :: seg) :: rest

/-- JS `content.split(String.fromCharCode(10))`, i.e. `split` on a newline. -/
def jsSplitLines (s : String) : List String :=
  (splitWhen (fun c => c == '\n') s.data).map fun l => ⟨l⟩

/-- JS `s.split(String.fromCharCode(44))`, i.e. `split` on a comma. -/
def jsSplitComma (s : String) : List String :=
  (splitWhen (fun c => c == ',') s.data).map fun l => ⟨l⟩

/-- JS `s.split(RegExp-whitespace-run)`.  The source only applies this to a
trimmed non-empty string, for which splitting on whitespace runs produces no
empty segment, so dropping empty segments is exact there. -/
def jsSplitWs (s : String) : List String :=
  ((splitWhen Char.isWhitespace s.data).filter fun l => !l.isEmpty).map fun l => ⟨l⟩

/-- The `KCMModule` interface of the source. -/
structure KCMModule where
  id : String
  name : String
  description : String
  icon : String
  keywords : List String
  execCommand : String
deriving DecidableEq, Repr

/-- The mutable locals of `parseDesktopFile`, threaded through the line loop. -/
structure ParseFields where
  name : String
  description : String
  icon : String
  keywords : List String
  moduleId : String
  execCommand : String
deriving DecidableEq, Repr

/-- Initial values of the `parseDesktopFile` locals. -/
def ParseFields.init : ParseFields :=
  ⟨"", "", "", [], "", ""⟩

/-- Body of the keyword branch: `keywordStr.split(",").map(trim).filter(nonempty)`. -/
def parseKeywords (keywordStr : String) : List String :=
  ((jsSplitComma keywordStr).map jsTrim).filter fun k => !k.data.isEmpty

/-- One iteration of the `for (const line of lines)` loop of `parseDesktopFile`. -/
def stepLine (f : ParseFields) (line : String) : ParseFields :=
  if jsStartsWith line "Name=" && !jsIncludes line "[" then
    { f with name := jsTrim (jsSubstringFrom line 5) }
  else if jsStartsWith line "Comment=" && !jsIncludes line "[" then
    { f with description := jsTrim (jsSubstringFrom line 8) }
  else if jsStartsWith line "Icon=" then
    { f with icon := jsTrim (jsSubstringFrom line 5) }
  else if jsStartsWith line "X-KDE-Keywords=" && !jsIncludes line "[" then
    { f with keywords := parseKeywords (jsTrim (jsSubstringFrom line 15)) }
  else if jsStartsWith line "X-KDE-Library=" then
    { f with moduleId := jsTrim (jsSubstringFrom line 14) }
  else if jsStartsWith line "Exec=" then
    { f with execCommand := jsTrim (jsSubstringFrom line 5) }
  else f

/-- The whole line loop of `parseDesktopFile`. -/
def extractFields (content : String) : ParseFields :=
  (jsSplitLines content).foldl stepLine ParseFields.init

/-- The `finalModuleId` / `finalCommand` resolution of `parseDesktopFile`:
modern `Exec=systemsettings <id>` first, else the legacy `X-KDE-Library`
field with a synthesized `kcmshell6` command, else unresolved (both empty). -/
def resolveIds (execCommand moduleId : String) : String × String :=
  if jsIncludes execCommand "systemsettings" then
    let parts := jsSplitWs execCommand
    if 1 < parts.length ∧ parts.getD 1 "" ≠ "" then (parts.getD 1 "", execCommand)
    else ("", "")
  else if moduleId ≠ "" then (moduleId, "kcmshell6 " ++ moduleId)
  else ("", "")

/-- `parseDesktopFile`, given the text content of one desktop file. -/
def parseDesktopFile (content : String) : Option KCMModule :=
  let f := extractFields content
  if f.name = "" then none
  else
    let r := resolveIds f.execCommand f.moduleId
    if r.1 = "" then none
    else
      some
        { id := r.1
          name := f.name
          description := if f.description = "" then f.name else f.description
          icon := if f.icon = "" then "preferences-system" else f.icon
          keywords := f.keywords
          execCommand := r.2 }

/-- One directory entry: a file name together with the text content of the file. -/
structure DesktopFile where
  fileName : String
  content : String
deriving DecidableEq, Repr

/-- Selection of the modern origin: files named `kcm_*.desktop` in the
applications directory. -/
def originAFiles (files : List DesktopFile) : List DesktopFile :=
  files.filter fun f => jsStartsWith f.fileName "kcm_" && jsEndsWith f.fileName ".desktop"

/-- Selection of the legacy origin: files named `*.desktop` in the kservices5
directory. -/
def originBFiles (files : List DesktopFile) : List DesktopFile :=
  files.filter fun f => jsEndsWith f.fileName ".desktop"

/-- Parsing every selected file, dropping the `null` results. -/
def parsedModules (files : List DesktopFile) : List KCMModule :=
  files.filterMap fun f => parseDesktopFile f.content

/-- Modules contributed by the modern directory; `none` models a directory
that does not exist (or whose listing failed), which contributes nothing. -/
def originAModules (appDir : Option (List DesktopFile)) : List KCMModule :=
  match appDir with
  | none => []
  | some files => parsedModules (originAFiles files)

/-- Modules contributed by the legacy directory. -/
def originBModules (kservices5Dir : Option (List DesktopFile)) : List KCMModule :=
  match kservices5Dir with
  | none => []
  | some files => parsedModules (originBFiles files)

/-- The `seen`-set deduplication of `loadKCMModules`: a module whose `id` was
already pushed is skipped, first occurrence wins. -/
def dedupById (seen : List String) : List KCMModule → List KCMModule
  | [] => []
  | m :: rest =>
    if seen.contains m.id then dedupById seen rest
    else m :: dedupById (m.id :: seen) rest

/-- The final `modules.sort(localeCompare on names)`.  `le` abstracts the
locale collation order `a.name.localeCompare(b.name) <= 0`; JS `Array.sort`
is specified to be stable, which `List.insertionSort` is. -/
def sortByName (le : String → String → Bool) (modules : List KCMModule) : List KCMModule :=
  List.insertionSort (fun a b => le a.name b.name = true) modules

/-- `loadKCMModules`: scan the modern directory, then the legacy directory,
deduplicate by id with one shared `seen` set, and sort by name. -/
def loadKCMModules (le : String → String → Bool)
    (appDir kservices5Dir : Option (List DesktopFile)) : List KCMModule :=
  sortByName le (dedupById [] (originAModules appDir ++ originBModules kservices5Dir))

/-- The filter predicate of `filteredModules` in the `SearchSettings`
component: an empty search passes everything, otherwise the lower-cased
search must occur in the name, the description, or some keyword. -/
def moduleMatches (searchText : String) (m : KCMModule) : Bool :=
  if searchText = "" then true
  else
    let search := jsToLower searchText
    jsIncludes (jsToLower m.name) search ||
    jsIncludes (jsToLower m.description) search ||
    m.keywords.any fun keyword => jsIncludes (jsToLower keyword) search

/-- The `filteredModules` collection of the `SearchSettings` component. -/
def filteredModules (modules : List KCMModule) (searchText : String) : List KCMModule :=
  modules.filter (moduleMatches searchText)

/-- A toast shown through the notification boundary. -/
structure Toast where
  title : String
  message : String
deriving DecidableEq, Repr

/-- Typed failures of the process-execution boundary. -/
inductive ExecFailure where
  | procError (msg : String)
  | nonZeroExit (msg : String)
  | timedOut (msg : String)
deriving DecidableEq, Repr

/-- The `error.message` string a failure carries. -/
def failureMessage : ExecFailure → String
  | ExecFailure.procError m => m
  | ExecFailure.nonZeroExit m => m
  | ExecFailure.timedOut m => m

/-- Modelled from the spec: the process-execution boundary (`execAsync`, a
promisified `child_process.exec`, which is library code outside this
repository).  It accepts a command string plus a timeout and returns
completion or a typed failure; an external process whose running time
exceeds the timeout is reported as a timeout failure instead of being
waited on indefinitely.  `runtimeMs` is the wall-clock duration of the
external process and `outcome` is what the call would report if the
process were allowed to finish. -/
def execAsync (command : String) (timeoutMs runtimeMs : Nat)
    (outcome : Except ExecFailure Unit) : Except ExecFailure Unit :=
  if timeoutMs < runtimeMs then Except.error (ExecFailure.timedOut command) else outcome

/-- The exported `openKCMModule`: toast, run the command with a 20000 ms
timeout, then either a success toast plus `closeMainWindow` or an error
toast.  The result is the list of toasts emitted and whether the main
window was closed; the function is total, so no failure escapes to the
caller. -/
def openKCMModule (moduleName command : String) (runtimeMs : Nat)
    (outcome : Except ExecFailure Unit) : List Toast × Bool :=
  let opening : Toast :=
    { title := "Opening " ++ moduleName ++ "...", message := "Launching KDE System Settings" }
  match execAsync command 20000 runtimeMs outcome with
  | Except.ok _ =>
      ([opening, { title := "Success", message := moduleName ++ " opened successfully" }], true)
  | Except.error e =>
      ([opening,
        { title := "Error",
          message := "Failed to open " ++ moduleName ++ ": " ++ failureMessage e }], false)

/-- The `execAsync(command)` call of the component-local `openKCMModule` in
`SearchSettings`, which passes no options object: the library default applies
no timeout, so the call waits for the external process however long it runs
and reports the outcome of the process itself (library behaviour outside
this repository, modelled per the process-boundary description of the
spec with the timeout absent). -/
def execAsyncNoTimeout (_command : String) (_runtimeMs : Nat)
    (outcome : Except ExecFailure Unit) : Except ExecFailure Unit :=
  outcome

/-- The component-local `openKCMModule` of the `SearchSettings` component,
the function the UI action actually invokes: it awaits `execAsync(command)`
with no timeout option, and its catch handler only logs
`console.error("Error opening module:", error)`.  The result is the pair of
console-error lines and toasts emitted; the toast list is always empty
because this invoker never touches the notification boundary, and the
function is total, so no failure escapes to the caller. -/
def openKCMModuleLocal (command : String) (runtimeMs : Nat)
    (outcome : Except ExecFailure Unit) : List String × List Toast :=
  match execAsyncNoTimeout command runtimeMs outcome with
  | Except.ok _ => ([], [])
  | Except.error e => (["Error opening module: " ++ failureMessage e], [])

/-! ### Supporting lemmas -/

/-- Every token produced by whitespace splitting is non-empty. -/
theorem jsSplitWs_ne_empty {s : String} {t : String} (h : t ∈ jsSplitWs s) : t ≠ "" := by
  simp only [jsSplitWs, List.mem_map, List.mem_filter] at h
  obtain ⟨l, ⟨-, hl⟩, rfl⟩ := h
  intro hcontra
  have : l = [] := congrArg String.data hcontra
  subst this
  simp at hl

/-- The second whitespace token is non-empty whenever it exists. -/
theorem jsSplitWs_getD_ne_empty {s : String} (h : 1 < (jsSplitWs s).length) :
    (jsSplitWs s).getD 1 "" ≠ "" := by
  rw [List.getD_eq_getElem _ _ h]
  exact jsSplitWs_ne_empty (List.getElem_mem h)

/-- Two string keys that are both prefixes of the same line are comparable. -/
theorem jsStartsWith_comparable {l a b : String} (ha : jsStartsWith l a = true)
    (hb : jsStartsWith l b = true) :
    (a.data.isPrefixOf b.data || b.data.isPrefixOf a.data) = true := by
  have ha' : a.data <+: l.data := List.isPrefixOf_iff_prefix.mp ha
  have hb' : b.data <+: l.data := List.isPrefixOf_iff_prefix.mp hb
  rcases List.prefix_or_prefix_of_prefix ha' hb' with h | h
  · simp [ List.isPrefixOf_iff_prefix.mpr h]
  · simp [ List.isPrefixOf_iff_prefix.mpr h]

/-- A line starting with key `a` cannot start with an incomparable key `b`. -/
theorem jsStartsWith_false_of {l : String} (a b : String) (ha : jsStartsWith l a = true)
    (hab : (a.data.isPrefixOf b.data || b.data.isPrefixOf a.data) = false) :
    jsStartsWith l b = false := by
  by_contra hb
  rw [Bool.not_eq_false] at hb
  rw [jsStartsWith_comparable ha hb] at hab
  simp at hab

/-- A line that is not an unqualified `Name=` assignment leaves the extracted
name unchanged. -/
theorem stepLine_name_of_neg {f : ParseFields} {line : String}
    (h : (jsStartsWith line "Name=" && !jsIncludes line "[") = false) :
    (stepLine f line).name = f.name := by
  unfold stepLine
  rw [h]
  simp only [Bool.false_eq_true, if_false]
  repeat' split
  all_goals rfl

/-- Folding the line loop over lines none of which is an unqualified `Name=`
assignment leaves the extracted name unchanged. -/
theorem foldl_stepLine_name {lines : List String} {f : ParseFields}
    (h : ∀ l ∈ lines, (jsStartsWith l "Name=" && !jsIncludes l "[") = false) :
    (lines.foldl stepLine f).name = f.name := by
  induction lines generalizing f with
  | nil => rfl
  | cons a rest ih =>
    rw [List.foldl_cons, ih fun l hl => h l (List.mem_cons_of_mem a hl)]
    exact stepLine_name_of_neg (h a (List.mem_cons_self a rest))

/-- Membership in the deduplicated list: a module is kept exactly when its id
is not already in the `seen` set and it is the first element of the input
carrying its id. -/
theorem mem_dedupById {l : List KCMModule} {m : KCMModule} :
    ∀ {seen : List String},
      m ∈ dedupById seen l ↔
        seen.contains m.id = false ∧ l.find? (fun x => x.id == m.id) = some m := by
  induction l with
  | nil => intro seen; simp [dedupById]
  | cons a rest ih =>
    intro seen
    rw [dedupById]
    by_cases hseen : seen.contains a.id = true
    · rw [if_pos hseen, ih]
      by_cases hbeq : (a.id == m.id) = true
      · have hid : a.id = m.id := beq_iff_eq.mp hbeq
        constructor
        · rintro ⟨hm, -⟩
          rw [← hid, hseen] at hm
          exact Bool.noConfusion hm
        · rintro ⟨hm, -⟩
          rw [← hid, hseen] at hm
          exact Bool.noConfusion hm
      · have hbeq' : (a.id == m.id) = false := Bool.eq_false_iff.mpr hbeq
        rw [List.find?_cons, hbeq']
    · rw [if_neg hseen]
      have hseen' : seen.contains a.id = false := Bool.eq_false_iff.mpr hseen
      by_cases hbeq : (a.id == m.id) = true
      · have hid : a.id = m.id := beq_iff_eq.mp hbeq
        simp only [List.mem_cons, ih, List.find?_cons, hbeq]
        constructor
        · rintro (rfl | ⟨hm, hfind⟩)
          · exact ⟨hid ▸ hseen', rfl⟩
          · rw [hid, List.contains_cons] at hm
            simp at hm
        · rintro ⟨-, hfind⟩
          exact Or.inl (Option.some.inj hfind).symm
      · have hbeq' : (a.id == m.id) = false := Bool.eq_false_iff.mpr hbeq
        have h1 : (m.id == a.id) = false := by
          rw [beq_eq_false_iff_ne] at hbeq' ⊢
          exact fun h => hbeq' h.symm
        simp only [List.mem_cons, ih, List.find?_cons, hbeq']
        constructor
        · rintro (rfl | ⟨hm, hfind⟩)
          · simp at hbeq'
          · refine ⟨?_, hfind⟩
            rw [List.contains_cons, Bool.or_eq_false_iff] at hm
            exact hm.2
        · rintro ⟨hm, hfind⟩
          refine Or.inr ⟨?_, hfind⟩
          rw [List.contains_cons, h1, hm]
          rfl

/-- The deduplicated list never contains two modules with the same id. -/
theorem dedupById_pairwise (seen : List String) (l : List KCMModule) :
    (dedupById seen l).Pairwise (fun x y => x.id ≠ y.id) := by
  induction l generalizing seen with
  | nil => exact List.Pairwise.nil
  | cons a rest ih =>
    rw [dedupById]
    by_cases hseen : seen.contains a.id = true
    · rw [if_pos hseen]; exact ih seen
    · rw [if_neg hseen]
      refine List.Pairwise.cons ?_ (ih _)
      intro y hy
      have hmem := (mem_dedupById.mp hy).1
      rw [List.contains_cons, Bool.or_eq_false_iff] at hmem
      have h2 : y.id ≠ a.id := beq_eq_false_iff_ne.mp hmem.1
      exact fun h => h2 h.symm

/-! ### Claim theorems -/

/-- Claim C2: the record `Name=Foo`, `Exec=systemsettings kcm_foo` parses to
id `kcm_foo`, name `Foo`, launch command `systemsettings kcm_foo`, and the
record `Name=Bar`, `X-KDE-Library=kcm_bar` (no modern Exec) parses to id
`kcm_bar`, name `Bar`, launch command `kcmshell6 kcm_bar`. -/
theorem parseDesktopFile_examples :
    (parseDesktopFile "Name=Foo\nExec=systemsettings kcm_foo").map
        (fun m => (m.id, m.name, m.execCommand)) =
      some ("kcm_foo", "Foo", "systemsettings kcm_foo") ∧
    (parseDesktopFile "Name=Bar\nX-KDE-Library=kcm_bar").map
        (fun m => (m.id, m.name, m.execCommand)) =
      some ("kcm_bar", "Bar", "kcmshell6 kcm_bar") := by
  constructor <;> decide

/-- Claim C6: filtering with the empty query is the identity, and with a
non-empty query a module is kept exactly when the lower-cased query occurs in
its lower-cased name, or in its lower-cased description, or in at least one
lower-cased keyword. -/
theorem filteredModules_spec (modules : List KCMModule) (searchText : String) :
    (searchText = "" → filteredModules modules searchText = modules) ∧
    (searchText ≠ "" →
      ∀ m, m ∈ filteredModules modules searchText ↔
        m ∈ modules ∧
          (jsIncludes (jsToLower m.name) (jsToLower searchText) = true ∨
           jsIncludes (jsToLower m.description) (jsToLower searchText) = true ∨
           ∃ k ∈ m.keywords, jsIncludes (jsToLower k) (jsToLower searchText) = true)) := by
  constructor
  · rintro rfl
    refine List.filter_eq_self.mpr fun m _ => ?_
    simp [moduleMatches]
  · intro hq m
    rw [filteredModules, List.mem_filter, moduleMatches, if_neg hq]
    simp [List.any_eq_true, and_congr_right_iff, or_assoc]

/-- Claim C7: the filtered collection is an order-preserving subsequence of
the input, and filtering twice with the same query equals filtering once. -/
theorem filteredModules_sublist_idempotent (modules : List KCMModule) (searchText : String) :
    filteredModules modules searchText <+ modules ∧
    filteredModules (filteredModules modules searchText) searchText =
      filteredModules modules searchText := by
  constructor
  · exact List.filter_sublist modules
  · rw [filteredModules, filteredModules, List.filter_filter]
    simp

/-- The exported `openKCMModule` (the toast-and-timeout variant, lines 7-31
of the source) does satisfy the launch-invoker contract: the command is run
with a 20000 ms upper bound on wait time, so a process exceeding the timeout
produces a timeout failure rather than an unbounded wait, and every failure
is surfaced as an `Error` toast through the notification boundary while the
function still returns normally.  Supporting result; the invoker the UI
action calls is the component-local one, which does not satisfy this. -/
theorem openKCMModule_timeout_safe (moduleName command : String) (runtimeMs : Nat)
    (outcome : Except ExecFailure Unit) :
    (20000 < runtimeMs →
      execAsync command 20000 runtimeMs outcome =
        Except.error (ExecFailure.timedOut command)) ∧
    (∀ e, execAsync command 20000 runtimeMs outcome = Except.error e →
      openKCMModule moduleName command runtimeMs outcome =
        ([⟨"Opening " ++ moduleName ++ "...", "Launching KDE System Settings"⟩,
          ⟨"Error", "Failed to open " ++ moduleName ++ ": " ++ failureMessage e⟩],
         false)) := by
  constructor
  · intro h
    rw [execAsync, if_pos h]
  · intro e he
    rw [openKCMModule, he]

/-- The exported invoker at a process that takes 25000 ms against the
20000 ms bound: the boundary reports a timeout failure and the invoker emits
the corresponding error toast without closing the window. -/
theorem openKCMModule_timeout_safe_witness :
    execAsync "systemsettings kcm_bt" 20000 25000 (Except.ok ()) =
      Except.error (ExecFailure.timedOut "systemsettings kcm_bt") ∧
    openKCMModule "Bluetooth" "systemsettings kcm_bt" 25000 (Except.ok ()) =
      ([⟨"Opening " ++ "Bluetooth" ++ "...", "Launching KDE System Settings"⟩,
        ⟨"Error", "Failed to open " ++ "Bluetooth" ++ ": " ++
          failureMessage (ExecFailure.timedOut "systemsettings kcm_bt")⟩],
       false) :=
  ⟨(openKCMModule_timeout_safe "Bluetooth" "systemsettings kcm_bt" 25000 (Except.ok ())).1
      (by decide),
   (openKCMModule_timeout_safe "Bluetooth" "systemsettings kcm_bt" 25000 (Except.ok ())).2
      (ExecFailure.timedOut "systemsettings kcm_bt") rfl⟩

/-- Claim C8: the claim fails on the code.  The launch invoker the UI action
calls is the component-local `openKCMModule`, which runs the command with no
timeout option: evaluated at a process running 1000000 ms, far beyond the
20000 ms bound of the exported invoker, the boundary reports plain success
instead of a timeout failure, so the wait is unbounded; and a process error
is logged to the console while the toast trace stays empty, so no failure
reaches the notification boundary.  The exported invoker (see the preceding
two theorems) does satisfy the claimed contract, which is why this is
recorded as a defect of the component-local duplicate rather than of the
specification. -/
theorem openKCMModuleLocal_no_timeout :
    execAsyncNoTimeout "systemsettings kcm_foo" 1000000 (Except.ok ()) = Except.ok () ∧
    openKCMModuleLocal "systemsettings kcm_foo" 1000000 (Except.ok ()) = ([], []) ∧
    openKCMModuleLocal "systemsettings kcm_foo" 1000000
        (Except.error (ExecFailure.procError "spawn systemsettings failed")) =
      (["Error opening module: " ++ "spawn systemsettings failed"], []) :=
  ⟨rfl, rfl, rfl⟩

/-- Witness for C6 on the Bluetooth example: the empty query returns the
collection unchanged, and the query `bt` matches through the keyword `BT`. -/
theorem filteredModules_spec_witness :
    filteredModules
        [⟨"kcm_bt", "Bluetooth", "Bluetooth", "network-bluetooth", ["wireless", "BT"],
          "systemsettings kcm_bt"⟩] "" =
      [⟨"kcm_bt", "Bluetooth", "Bluetooth", "network-bluetooth", ["wireless", "BT"],
        "systemsettings kcm_bt"⟩] ∧
    (⟨"kcm_bt", "Bluetooth", "Bluetooth", "network-bluetooth", ["wireless", "BT"],
        "systemsettings kcm_bt"⟩ : KCMModule) ∈
      filteredModules
        [⟨"kcm_bt", "Bluetooth", "Bluetooth", "network-bluetooth", ["wireless", "BT"],
          "systemsettings kcm_bt"⟩] "bt" :=
  ⟨(filteredModules_spec _ "").1 rfl,
   ((filteredModules_spec _ "bt").2 (by decide) _).mpr (by decide)⟩

/-- Claim C1: identifier resolution follows the ordered rule table.  If the
extracted Exec value contains `systemsettings` and splits into at least two
whitespace tokens, the second token is the id and the full Exec string the
launch command; otherwise, when the Exec value does not contain the launcher
token and a legacy `X-KDE-Library` module id was captured, that value is the
id and the command is `kcmshell6 <moduleId>`; in all remaining cases no
identifier is resolved and the record is absent. -/
theorem parseDesktopFile_resolution (content : String) :
    (jsIncludes (extractFields content).execCommand "systemsettings" = true →
      1 < (jsSplitWs (extractFields content).execCommand).length →
      (extractFields content).name ≠ "" →
      (parseDesktopFile content).map (fun m => (m.id, m.execCommand)) =
        some ((jsSplitWs (extractFields content).execCommand).getD 1 "",
          (extractFields content).execCommand)) ∧
    (jsIncludes (extractFields content).execCommand "systemsettings" = false →
      (extractFields content).moduleId ≠ "" →
      (extractFields content).name ≠ "" →
      (parseDesktopFile content).map (fun m => (m.id, m.execCommand)) =
        some ((extractFields content).moduleId,
          "kcmshell6 " ++ (extractFields content).moduleId)) ∧
    ((jsIncludes (extractFields content).execCommand "systemsettings" = true ∧
        (jsSplitWs (extractFields content).execCommand).length ≤ 1) ∨
      (jsIncludes (extractFields content).execCommand "systemsettings" = false ∧
        (extractFields content).moduleId = "") →
      parseDesktopFile content = none) := by
  refine ⟨?_, ?_, ?_⟩
  · intro hinc hlen hname
    have hgetD := jsSplitWs_getD_ne_empty hlen
    rw [List.getD_eq_getElem _ _ hlen] at hgetD
    simp [parseDesktopFile, resolveIds, hinc, hlen, hname, hgetD]
  · intro hinc hmid hname
    simp [parseDesktopFile, resolveIds, hinc, hmid, hname]
  · rintro (⟨hinc, hlen⟩ | ⟨hinc, hmid⟩)
    · by_cases hname : (extractFields content).name = ""
      · simp [parseDesktopFile, hname]
      · have hnlt : ¬1 < (jsSplitWs (extractFields content).execCommand).length :=
          Nat.not_lt.mpr hlen
        simp [parseDesktopFile, resolveIds, hinc, hname, hnlt]
    · by_cases hname : (extractFields content).name = ""
      · simp [parseDesktopFile, hname]
      · simp [parseDesktopFile, resolveIds, hinc, hmid, hname]

/-- Witness for C1, exercising all three resolution rules on concrete
records: a modern record, a legacy record, and a record whose Exec value is
`systemsettings` with no second token. -/
theorem parseDesktopFile_resolution_witness :
    (parseDesktopFile "Name=Foo\nExec=systemsettings kcm_foo").map
        (fun m => (m.id, m.execCommand)) =
      some ((jsSplitWs (extractFields "Name=Foo\nExec=systemsettings kcm_foo").execCommand).getD
          1 "",
        (extractFields "Name=Foo\nExec=systemsettings kcm_foo").execCommand) ∧
    (parseDesktopFile "Name=Bar\nX-KDE-Library=kcm_bar").map
        (fun m => (m.id, m.execCommand)) =
      some ((extractFields "Name=Bar\nX-KDE-Library=kcm_bar").moduleId,
        "kcmshell6 " ++ (extractFields "Name=Bar\nX-KDE-Library=kcm_bar").moduleId) ∧
    parseDesktopFile "Name=Baz\nExec=systemsettings\nX-KDE-Library=kcm_baz" = none :=
  ⟨(parseDesktopFile_resolution "Name=Foo\nExec=systemsettings kcm_foo").1
      (by decide) (by decide) (by decide),
   (parseDesktopFile_resolution "Name=Bar\nX-KDE-Library=kcm_bar").2.1
      (by decide) (by decide) (by decide),
   (parseDesktopFile_resolution "Name=Baz\nExec=systemsettings\nX-KDE-Library=kcm_baz").2.2
      (Or.inl ⟨by decide, by decide⟩)⟩

/-- Claim C3: the parser yields `none` exactly when the extracted name is
empty or no identifier was resolved; in particular a record with no
unqualified `Name=` line is absent regardless of its other fields, and a
record whose Exec value is `systemsettings` with no second token and whose
legacy library field is empty is absent. -/
theorem parseDesktopFile_absent_iff (content : String) :
    (parseDesktopFile content = none ↔
      (extractFields content).name = "" ∨
      (resolveIds (extractFields content).execCommand
          (extractFields content).moduleId).1 = "") ∧
    ((∀ l ∈ jsSplitLines content,
        (jsStartsWith l "Name=" && !jsIncludes l "[") = false) →
      parseDesktopFile content = none) ∧
    ((extractFields content).execCommand = "systemsettings" →
      (extractFields content).moduleId = "" →
      parseDesktopFile content = none) := by
  have hmain : parseDesktopFile content = none ↔
      (extractFields content).name = "" ∨
      (resolveIds (extractFields content).execCommand
          (extractFields content).moduleId).1 = "" := by
    by_cases hname : (extractFields content).name = ""
    · simp [parseDesktopFile, hname]
    · by_cases hr : (resolveIds (extractFields content).execCommand
          (extractFields content).moduleId).1 = ""
      · simp [parseDesktopFile, hname, hr]
      · simp [parseDesktopFile, hname, hr]
  refine ⟨hmain, ?_, ?_⟩
  · intro h
    refine hmain.mpr (Or.inl ?_)
    exact foldl_stepLine_name h
  · intro hexec hmid
    refine hmain.mpr (Or.inr ?_)
    rw [hexec, hmid]
    decide

/-- Witness for C3: a record with no `Name=` line at all is absent, and a
record with `Exec=systemsettings` (one token) and no library field is
absent. -/
theorem parseDesktopFile_absent_iff_witness :
    parseDesktopFile "Icon=preferences\nExec=systemsettings kcm_x" = none ∧
    parseDesktopFile "Name=Baz\nExec=systemsettings" = none :=
  ⟨(parseDesktopFile_absent_iff "Icon=preferences\nExec=systemsettings kcm_x").2.1
      (by decide),
   (parseDesktopFile_absent_iff "Name=Baz\nExec=systemsettings").2.2
      (by decide) (by decide)⟩

/-- Claim C9: for every record the parser accepts, the description equals the
extracted Comment value when a non-empty one was captured and otherwise
defaults to the name, and the icon equals the extracted Icon value when a
non-empty one was captured and otherwise defaults to `preferences-system`. -/
theorem parseDesktopFile_defaults (content : String) (m : KCMModule)
    (h : parseDesktopFile content = some m) :
    ((extractFields content).description ≠ "" →
      m.description = (extractFields content).description) ∧
    ((extractFields content).description = "" → m.description = m.name) ∧
    ((extractFields content).icon ≠ "" → m.icon = (extractFields content).icon) ∧
    ((extractFields content).icon = "" → m.icon = "preferences-system") := by
  by_cases hname : (extractFields content).name = ""
  · rw [parseDesktopFile] at h
    simp [hname] at h
  · by_cases hr : (resolveIds (extractFields content).execCommand
        (extractFields content).moduleId).1 = ""
    · rw [parseDesktopFile] at h
      simp [hname, hr] at h
    · rw [parseDesktopFile] at h
      simp only [hname, hr, if_neg, ite_false] at h
      obtain rfl := Option.some.inj h
      refine ⟨fun hx => ?_, fun hx => ?_, fun hx => ?_, fun hx => ?_⟩ <;>
        simp [hx]

/-- Witness for C9: a record carrying both a Comment and an Icon keeps them,
and a record carrying neither falls back to the name and the generic icon. -/
theorem parseDesktopFile_defaults_witness :
    ((⟨"kcm_a", "Foo", "About Foo", "foo-icon", [], "systemsettings kcm_a"⟩ : KCMModule).description
        = (extractFields "Name=Foo\nComment=About Foo\nIcon=foo-icon\nExec=systemsettings kcm_a").description) ∧
    ((⟨"kcm_a", "Foo", "About Foo", "foo-icon", [], "systemsettings kcm_a"⟩ : KCMModule).icon
        = (extractFields "Name=Foo\nComment=About Foo\nIcon=foo-icon\nExec=systemsettings kcm_a").icon) ∧
    ((⟨"kcm_b", "Bar", "Bar", "preferences-system", [], "systemsettings kcm_b"⟩ : KCMModule).description
        = (⟨"kcm_b", "Bar", "Bar", "preferences-system", [], "systemsettings kcm_b"⟩ : KCMModule).name) ∧
    (⟨"kcm_b", "Bar", "Bar", "preferences-system", [], "systemsettings kcm_b"⟩ : KCMModule).icon
        = "preferences-system" :=
  ⟨(parseDesktopFile_defaults "Name=Foo\nComment=About Foo\nIcon=foo-icon\nExec=systemsettings kcm_a"
      ⟨"kcm_a", "Foo", "About Foo", "foo-icon", [], "systemsettings kcm_a"⟩ (by decide)).1
      (by decide),
   (parseDesktopFile_defaults "Name=Foo\nComment=About Foo\nIcon=foo-icon\nExec=systemsettings kcm_a"
      ⟨"kcm_a", "Foo", "About Foo", "foo-icon", [], "systemsettings kcm_a"⟩ (by decide)).2.2.1
      (by decide),
   (parseDesktopFile_defaults "Name=Bar\nExec=systemsettings kcm_b"
      ⟨"kcm_b", "Bar", "Bar", "preferences-system", [], "systemsettings kcm_b"⟩ (by decide)).2.1
      (by decide),
   (parseDesktopFile_defaults "Name=Bar\nExec=systemsettings kcm_b"
      ⟨"kcm_b", "Bar", "Bar", "preferences-system", [], "systemsettings kcm_b"⟩ (by decide)).2.2.2
      (by decide)⟩

/-- Claim C10: a line assigning one of the unqualified keys `Name`, `Comment`
or `X-KDE-Keywords` is ignored whenever the line contains a bracket anywhere,
including inside the value; in particular a record whose only Name line is
`Name=Foo [Beta]` parses to absent. -/
theorem stepLine_bracket_ignored :
    (∀ (f : ParseFields) (line : String),
      (jsStartsWith line "Name=" || jsStartsWith line "Comment=" ||
        jsStartsWith line "X-KDE-Keywords=") = true →
      jsIncludes line "[" = true → stepLine f line = f) ∧
    parseDesktopFile "Name=Foo [Beta]" = none := by
  constructor
  · intro f line hstarts hincl
    have hni : (!jsIncludes line "[") = false := by rw [hincl]; rfl
    rw [Bool.or_eq_true, Bool.or_eq_true] at hstarts
    rcases hstarts with (hk | hk) | hk
    · have h3 : jsStartsWith line "Icon=" = false :=
        jsStartsWith_false_of _ _ hk (by decide)
      have h5 : jsStartsWith line "X-KDE-Library=" = false :=
        jsStartsWith_false_of _ _ hk (by decide)
      have h6 : jsStartsWith line "Exec=" = false :=
        jsStartsWith_false_of _ _ hk (by decide)
      simp [stepLine, hni, h3, h5, h6]
    · have h3 : jsStartsWith line "Icon=" = false :=
        jsStartsWith_false_of _ _ hk (by decide)
      have h5 : jsStartsWith line "X-KDE-Library=" = false :=
        jsStartsWith_false_of _ _ hk (by decide)
      have h6 : jsStartsWith line "Exec=" = false :=
        jsStartsWith_false_of _ _ hk (by decide)
      simp [stepLine, hni, h3, h5, h6]
    · have h3 : jsStartsWith line "Icon=" = false :=
        jsStartsWith_false_of _ _ hk (by decide)
      have h5 : jsStartsWith line "X-KDE-Library=" = false :=
        jsStartsWith_false_of _ _ hk (by decide)
      have h6 : jsStartsWith line "Exec=" = false :=
        jsStartsWith_false_of _ _ hk (by decide)
      simp [stepLine, hni, h3, h5, h6]
  · decide

/-- Witness for C10: the bracketed line `Name=Foo [Beta]` leaves the parse
state untouched. -/
theorem stepLine_bracket_ignored_witness :
    stepLine ParseFields.init "Name=Foo [Beta]" = ParseFields.init :=
  stepLine_bracket_ignored.1 ParseFields.init "Name=Foo [Beta]" (by decide) (by decide)

/-- Claim C4: the scanner result contains no two descriptors with the same
id; a module is in the result exactly when it is the first-encountered
module with its id in the concatenated scan stream (modern origin first),
and in particular the modern origin wins any cross-origin id collision. -/
theorem loadKCMModules_dedup (le : String → String → Bool)
    (appDir kservices5Dir : Option (List DesktopFile)) :
    (loadKCMModules le appDir kservices5Dir).Pairwise (fun x y => x.id ≠ y.id) ∧
    (∀ m, m ∈ loadKCMModules le appDir kservices5Dir ↔
      (originAModules appDir ++ originBModules kservices5Dir).find?
          (fun x => x.id == m.id) = some m) ∧
    (∀ m, m ∈ loadKCMModules le appDir kservices5Dir →
      (∃ x ∈ originAModules appDir, x.id = m.id) →
      m ∈ originAModules appDir) := by
  have hperm : loadKCMModules le appDir kservices5Dir ~
      dedupById [] (originAModules appDir ++ originBModules kservices5Dir) :=
    List.perm_insertionSort _ _
  have hmem : ∀ m, m ∈ loadKCMModules le appDir kservices5Dir ↔
      (originAModules appDir ++ originBModules kservices5Dir).find?
        (fun x => x.id == m.id) = some m := by
    intro m
    rw [hperm.mem_iff, mem_dedupById]
    simp [List.contains]
  refine ⟨?_, hmem, ?_⟩
  · exact (hperm.pairwise_iff fun h => h.symm).mpr (dedupById_pairwise [] _)
  · intro m hm hex
    have hfind := (hmem m).mp hm
    obtain ⟨x, hx, hxid⟩ := hex
    have hxs : ((originAModules appDir).find? (fun y => y.id == m.id)).isSome :=
      List.find?_isSome.mpr ⟨x, hx, by simp [hxid]⟩
    obtain ⟨y, hy⟩ := Option.isSome_iff_exists.mp hxs
    rw [List.find?_append, hy, Option.or_some] at hfind
    obtain rfl := Option.some.inj hfind
    exact List.mem_of_find?_eq_some hy

/-- Witness for C4 on a concrete cross-origin collision: both origins yield a
module with id `kcm_foo`, and the result keeps the one from the modern origin. -/
theorem loadKCMModules_dedup_witness :
    (⟨"kcm_foo", "Foo", "Foo", "preferences-system", [], "systemsettings kcm_foo"⟩ : KCMModule) ∈
      originAModules (some [⟨"kcm_foo.desktop", "Name=Foo\nExec=systemsettings kcm_foo"⟩]) :=
  (loadKCMModules_dedup (fun _ _ => true)
      (some [⟨"kcm_foo.desktop", "Name=Foo\nExec=systemsettings kcm_foo"⟩])
      (some [⟨"bar.desktop", "Name=Bar\nX-KDE-Library=kcm_foo"⟩])).2.2
    ⟨"kcm_foo", "Foo", "Foo", "preferences-system", [], "systemsettings kcm_foo"⟩
    (by decide) (by decide)

/-- Claim C5: for every total and transitive comparator (such as the locale
collation used by `localeCompare`), the scanner output is sorted ascending by
name, is a permutation of the deduplicated collection, keeps tied names in
the stable underlying order, and sorting the already-sorted output again
changes nothing, so the result is deterministic. -/
theorem loadKCMModules_sorted (le : String → String → Bool)
    (appDir kservices5Dir : Option (List DesktopFile))
    (htrans : ∀ a b c, le a b = true → le b c = true → le a c = true)
    (htotal : ∀ a b, le a b = true ∨ le b a = true) :
    List.Sorted (fun x y : KCMModule => le x.name y.name = true)
      (loadKCMModules le appDir kservices5Dir) ∧
    loadKCMModules le appDir kservices5Dir ~
      dedupById [] (originAModules appDir ++ originBModules kservices5Dir) ∧
    (∀ n : String,
      (loadKCMModules le appDir kservices5Dir).filter
          (fun m => le m.name n && le n m.name) =
        (dedupById [] (originAModules appDir ++ originBModules kservices5Dir)).filter
          (fun m => le m.name n && le n m.name)) ∧
    sortByName le (loadKCMModules le appDir kservices5Dir) =
      loadKCMModules le appDir kservices5Dir := by
  haveI : IsTotal KCMModule (fun x y => le x.name y.name = true) :=
    ⟨fun a b => htotal a.name b.name⟩
  haveI : IsTrans KCMModule (fun x y => le x.name y.name = true) :=
    ⟨fun a b c => htrans a.name b.name c.name⟩
  have hsorted : List.Sorted (fun x y : KCMModule => le x.name y.name = true)
      (loadKCMModules le appDir kservices5Dir) :=
    List.sorted_insertionSort _ _
  have hperm : loadKCMModules le appDir kservices5Dir ~
      dedupById [] (originAModules appDir ++ originBModules kservices5Dir) :=
    List.perm_insertionSort _ _
  refine ⟨hsorted, hperm, ?_, List.Sorted.insertionSort_eq hsorted⟩
  intro n
  have hcsub :
      (dedupById [] (originAModules appDir ++ originBModules kservices5Dir)).filter
          (fun m => le m.name n && le n m.name) <+
        dedupById [] (originAModules appDir ++ originBModules kservices5Dir) :=
    List.filter_sublist _
  have hcp :
      ((dedupById [] (originAModules appDir ++ originBModules kservices5Dir)).filter
          (fun m => le m.name n && le n m.name)).Pairwise
        (fun x y => le x.name y.name = true) := by
    refine List.pairwise_of_forall_mem_list ?_
    intro x hx y hy
    have hx2 := (List.mem_filter.mp hx).2
    have hy2 := (List.mem_filter.mp hy).2
    rw [Bool.and_eq_true] at hx2 hy2
    exact htrans _ _ _ hx2.1 hy2.2
  have h2 := List.sublist_insertionSort hcp hcsub
  have h3 :
      ((dedupById [] (originAModules appDir ++ originBModules kservices5Dir)).filter
            (fun m => le m.name n && le n m.name)).filter
          (fun m => le m.name n && le n m.name) =
        (dedupById [] (originAModules appDir ++ originBModules kservices5Dir)).filter
          (fun m => le m.name n && le n m.name) := by
    rw [List.filter_filter]
    simp
  have h4 := h3 ▸ (h2.filter fun m : KCMModule => le m.name n && le n m.name)
  have h5 := hperm.filter fun m : KCMModule => le m.name n && le n m.name
  exact (h4.eq_of_length h5.length_eq.symm).symm

/-- Witness for C5 with the always-true comparator (total and transitive) on
a concrete pair of origins. -/
theorem loadKCMModules_sorted_witness :
    List.Sorted (fun x y : KCMModule => (fun _ _ : String => true) x.name y.name = true)
      (loadKCMModules (fun _ _ => true)
        (some [⟨"kcm_foo.desktop", "Name=Foo\nExec=systemsettings kcm_foo"⟩])
        (some [⟨"bar.desktop", "Name=Bar\nX-KDE-Library=kcm_bar"⟩])) :=
  (loadKCMModules_sorted (fun _ _ => true)
      (some [⟨"kcm_foo.desktop", "Name=Foo\nExec=systemsettings kcm_foo"⟩])
      (some [⟨"bar.desktop", "Name=Bar\nX-KDE-Library=kcm_bar"⟩])
      (fun _ _ _ _ _ => rfl) (fun _ _ => Or.inl rfl)).1

end Vicinae
